import Mathlib

/-!
Verification of the AvatarAI orchestration core against its source.

Each component that the claims mention is shallowly embedded from the
Python source (`python_ai/`): the rate-limited decision gate
(`main.py:_can_make_brain_decision`), the activity state machine
(`state_machine/state_manager.py`), the Unity actuation channel
(`planner_layer/unity_client.py`), the rate-limited executor
(`planner_layer/executor.py`), the priority event multiplexer
(`main.py:_main_loop`) and the fixed-timestep simulation loop
(`main.py:_pokemon_game_loop`).  Wall-clock time is modelled by `ℚ`.
External collaborators (the Brain, the planner, the manual controller's
command parser, the RL agent) are treated as parameters supplied by the
environment of each step, exactly where the source calls out to them.
-/

namespace AvatarAI

/-! ## Rate-limited decision gate (`main.py` lines 120-122, 845-854)

`__init__` sets `last_brain_decision_time = 0.0`; `_can_make_brain_decision`
admits a call iff `current_time - last >= interval`, and on admission sets
`last := current_time`. -/

structure GateState where
  lastBrainDecisionTime : ℚ
  brainDecisionInterval : ℚ
deriving DecidableEq

/-- `AvatarAISystem.__init__`: `self.last_brain_decision_time = 0.0`. -/
def GateState.init (interval : ℚ) : GateState :=
  { lastBrainDecisionTime := 0, brainDecisionInterval := interval }

/-- `AvatarAISystem._can_make_brain_decision` (main.py 845-854). -/
def can_make_brain_decision (s : GateState) (currentTime : ℚ) : Bool × GateState :=
  if s.brainDecisionInterval ≤ currentTime - s.lastBrainDecisionTime then
    (true, { s with lastBrainDecisionTime := currentTime })
  else
    (false, s)

/-- The gate over a sequence of call times: the times that were admitted. -/
def admittedTimes (s : GateState) : List ℚ → List ℚ
  | [] => []
  | t :: ts =>
    match can_make_brain_decision s t with
    | (true, s') => t :: admittedTimes s' ts
    | (false, s') => admittedTimes s' ts

/-- The gate over a sequence of call times: the admit/reject verdicts. -/
def gateVerdicts (s : GateState) : List ℚ → List Bool
  | [] => []
  | t :: ts => (can_make_brain_decision s t).1 :: gateVerdicts (can_make_brain_decision s t).2 ts

/-- `N` call times starting at `t0`, consecutive calls `step` apart. -/
def spacedCalls (t0 step : ℚ) : ℕ → List ℚ
  | 0 => []
  | n + 1 => t0 :: spacedCalls (t0 + step) step n

lemma can_make_pos {s : GateState} {t : ℚ}
    (h : s.brainDecisionInterval ≤ t - s.lastBrainDecisionTime) :
    can_make_brain_decision s t = (true, { s with lastBrainDecisionTime := t }) := by
  simp [can_make_brain_decision, h]

lemma can_make_neg {s : GateState} {t : ℚ}
    (h : ¬ s.brainDecisionInterval ≤ t - s.lastBrainDecisionTime) :
    can_make_brain_decision s t = (false, s) := by
  simp [can_make_brain_decision, h]

lemma admittedTimes_head (s : GateState) (ts : List ℚ) :
    ∀ t ∈ (admittedTimes s ts).head?,
      s.lastBrainDecisionTime + s.brainDecisionInterval ≤ t := by
  induction ts generalizing s with
  | nil => simp [admittedTimes]
  | cons t ts ih =>
    by_cases h : s.brainDecisionInterval ≤ t - s.lastBrainDecisionTime
    · simp only [admittedTimes, can_make_pos h]
      intro u hu
      simp only [List.head?_cons, Option.mem_def, Option.some.injEq] at hu
      subst hu
      linarith
    · simp only [admittedTimes, can_make_neg h]
      exact ih s

lemma admittedTimes_chain (s : GateState) (ts : List ℚ) :
    List.Chain' (fun x y => x + s.brainDecisionInterval ≤ y) (admittedTimes s ts) := by
  induction ts generalizing s with
  | nil => simp [admittedTimes]
  | cons t ts ih =>
    by_cases h : s.brainDecisionInterval ≤ t - s.lastBrainDecisionTime
    · simp only [admittedTimes, can_make_pos h]
      rw [List.chain'_cons']
      refine ⟨fun y hy => ?_, ?_⟩
      · have := admittedTimes_head { s with lastBrainDecisionTime := t } ts y hy
        simpa using this
      · simpa using ih { s with lastBrainDecisionTime := t }
    · simp only [admittedTimes, can_make_neg h]
      exact ih s

lemma countP_window_le_one {T a : ℚ} (_hT : 0 < T) :
    ∀ {l : List ℚ}, l.Pairwise (fun x y => x + T ≤ y) →
      l.countP (fun t => decide (a ≤ t ∧ t < a + T)) ≤ 1 := by
  intro l hp
  induction l with
  | nil => simp
  | cons x l ih =>
    rw [List.countP_cons]
    rcases List.pairwise_cons.mp hp with ⟨hx, hp'⟩
    by_cases hpx : a ≤ x ∧ x < a + T
    · have hzero : l.countP (fun t => decide (a ≤ t ∧ t < a + T)) = 0 := by
        rw [List.countP_eq_zero]
        intro y hy
        have hsep := hx y hy
        simp only [decide_eq_true_eq]
        rintro ⟨h1, h2⟩
        linarith [hpx.1, hpx.2]
      rw [hzero, decide_eq_true (p := a ≤ x ∧ x < a + T) hpx]
      simp
    · rw [decide_eq_false hpx]
      simpa using ih hp'

lemma admittedTimes_window (s : GateState) (ts : List ℚ)
    (hT : 0 < s.brainDecisionInterval) (a : ℚ) :
    (admittedTimes s ts).countP
      (fun t => decide (a ≤ t ∧ t < a + s.brainDecisionInterval)) ≤ 1 := by
  haveI : IsTrans ℚ (fun x y => x + s.brainDecisionInterval ≤ y) := by
    refine ⟨fun x y z hxy hyz => ?_⟩
    have h1 : x + s.brainDecisionInterval ≤ y := hxy
    have h2 : y + s.brainDecisionInterval ≤ z := hyz
    show x + s.brainDecisionInterval ≤ z
    linarith
  exact countP_window_le_one hT
    (List.chain'_iff_pairwise.mp (admittedTimes_chain s ts))

/-- With `T > 0`, calls spaced `T/2` apart alternate admit/reject once the
first one is admitted. -/
theorem admitted_spaced_len : ∀ (n : ℕ) (l t0 T : ℚ), 0 < T → l + T ≤ t0 →
    (admittedTimes ⟨l, T⟩ (spacedCalls t0 (T / 2) n)).length = (n + 1) / 2
  | 0, l, t0, T, _, _ => by
    simp [spacedCalls, admittedTimes]
  | 1, l, t0, T, hT, h => by
    have h1 : (⟨l, T⟩ : GateState).brainDecisionInterval ≤
        t0 - (⟨l, T⟩ : GateState).lastBrainDecisionTime := by
      show T ≤ t0 - l
      linarith
    simp [spacedCalls, admittedTimes, can_make_pos h1]
  | n + 2, l, t0, T, hT, h => by
    have h1 : (⟨l, T⟩ : GateState).brainDecisionInterval ≤
        t0 - (⟨l, T⟩ : GateState).lastBrainDecisionTime := by
      show T ≤ t0 - l
      linarith
    have h2 : ¬ (⟨t0, T⟩ : GateState).brainDecisionInterval ≤
        (t0 + T / 2) - (⟨t0, T⟩ : GateState).lastBrainDecisionTime := by
      show ¬ T ≤ t0 + T / 2 - t0
      intro hc
      linarith
    have ih := admitted_spaced_len n t0 (t0 + T / 2 + T / 2) T hT (by linarith)
    simp only [spacedCalls, admittedTimes, can_make_pos h1, can_make_neg h2,
      List.length_cons]
    rw [ih]
    omega

/-- C1 (amended): on every call the gate either admits and advances the
last-accepted timestamp to the call time, or rejects and leaves the state
unchanged; for any call sequence the admitted times contain at most one
call in any window of length `T`; and for `N` calls spaced `T/2` apart
whose first call occurs at least one interval after the clock origin
(so that the first call is admitted), exactly `⌈N/2⌉` are admitted. -/
theorem C1_decision_gate (s : GateState) (t : ℚ) (ts : List ℚ) :
    ((can_make_brain_decision s t).1 = true →
      (can_make_brain_decision s t).2 = { s with lastBrainDecisionTime := t })
  ∧ ((can_make_brain_decision s t).1 = false → (can_make_brain_decision s t).2 = s)
  ∧ (0 < s.brainDecisionInterval → ∀ a : ℚ,
      (admittedTimes s ts).countP
        (fun u => decide (a ≤ u ∧ u < a + s.brainDecisionInterval)) ≤ 1)
  ∧ (∀ (n : ℕ) (t0 T : ℚ), 0 < T → T ≤ t0 →
      (admittedTimes (GateState.init T) (spacedCalls t0 (T / 2) n)).length =
        (n + 1) / 2) := by
  refine ⟨?_, ?_, admittedTimes_window s ts, ?_⟩
  · intro hadm
    by_cases h : s.brainDecisionInterval ≤ t - s.lastBrainDecisionTime
    · rw [can_make_pos h]
    · rw [can_make_neg h] at hadm ⊢
      exact absurd hadm (by simp)
  · intro hrej
    by_cases h : s.brainDecisionInterval ≤ t - s.lastBrainDecisionTime
    · rw [can_make_pos h] at hrej ⊢
      exact absurd hrej (by simp)
    · rw [can_make_neg h]
  · intro n t0 T hT h
    exact admitted_spaced_len n 0 t0 T hT (by linarith)

/-- C1 counterexample: from the initial state (last-accepted timestamp 0),
two calls spaced `T/2` apart starting at the clock origin admit zero calls,
not `⌈2/2⌉ = 1`: the first call is rejected because the timestamp is not
initialized one interval in the past. -/
theorem C1_counterexample :
    (admittedTimes (GateState.init 1) (spacedCalls 0 (1 / 2) 2)).length ≠ (2 + 1) / 2 := by
  norm_num [admittedTimes, spacedCalls, can_make_brain_decision, GateState.init]

/-- C1 witness: with `T = 1` and first call at `t0 = 1`, five calls spaced
`1/2` apart admit exactly `3 = ⌈5/2⌉`. -/
theorem C1_decision_gate_witness :
    (0 : ℚ) < 1 ∧ (1 : ℚ) ≤ 1 ∧
    (admittedTimes (GateState.init 1) (spacedCalls 1 (1 / 2) 5)).length = 3 :=
  ⟨by norm_num, by norm_num, by
    have h := (C1_decision_gate (GateState.init 1) 1 []).2.2.2 5 1 1
      (by norm_num) (by norm_num)
    simpa using h⟩

/-- C8 (amended): the last-accepted timestamp is initialized to `0`, not
one interval in the past, so the very first call is permitted iff it
occurs at least one interval after the clock origin; with `T = 1/2`,
requests at `t = 0`, `t = 0.1` and `t = 0.6` give reject, reject, admit. -/
theorem C8_first_call (T t0 : ℚ) :
    ((can_make_brain_decision (GateState.init T) t0).1 = true ↔ T ≤ t0)
  ∧ (GateState.init T).lastBrainDecisionTime = 0
  ∧ gateVerdicts (GateState.init (1 / 2)) [0, 1 / 10, 3 / 5] =
      [false, false, true] := by
  refine ⟨?_, rfl, by norm_num [gateVerdicts, can_make_brain_decision, GateState.init]⟩
  by_cases h : T ≤ t0
  · have h' : (GateState.init T).brainDecisionInterval ≤
        t0 - (GateState.init T).lastBrainDecisionTime := by
      show T ≤ t0 - 0
      simpa using h
    rw [can_make_pos h']
    simpa using h
  · have h' : ¬ (GateState.init T).brainDecisionInterval ≤
        t0 - (GateState.init T).lastBrainDecisionTime := by
      show ¬ T ≤ t0 - 0
      simpa using h
    rw [can_make_neg h']
    simpa using h

/-- C8 counterexample: with interval `T = 1/2` the very first call, made at
clock time `0`, is rejected — the first call is not always permitted. -/
theorem C8_counterexample :
    (can_make_brain_decision (GateState.init (1 / 2)) 0).1 = false := by
  norm_num [can_make_brain_decision, GateState.init]

/-- C8 witness: a first call at `t0 = 2` with `T = 1` is admitted. -/
theorem C8_first_call_witness :
    ((can_make_brain_decision (GateState.init 1) 2).1 = true ↔ (1 : ℚ) ≤ 2) :=
  (C8_first_call 1 2).1

/-! ## Activity state machine (`state_machine/state_manager.py`)

`transition_to` is a no-op when the target equals the current state;
otherwise it switches state, resets the state clock, and appends
`(datetime.now(), new_state, reason)` to `state_history`.  The prior
duration is computed only for the text log line, not stored. -/

inductive AIState
  | IDLE
  | TALKING
  | PLAYING
  | THINKING
deriving DecidableEq

/-- One `state_history` entry: the source appends the triple
`(datetime.now(), new_state, reason)` (state_manager.py line 54). -/
structure HistoryEntry where
  time : ℚ
  state : AIState
  reason : Option String
deriving DecidableEq

structure StateManager where
  currentState : AIState
  stateHistory : List HistoryEntry
  stateStartTime : ℚ
deriving DecidableEq

/-- `StateManager.transition_to` (state_manager.py 36-59). -/
def transition_to (m : StateManager) (now : ℚ) (newState : AIState)
    (reason : Option String) : StateManager :=
  if newState = m.currentState then m
  else
    { currentState := newState
      stateHistory := m.stateHistory ++ [⟨now, newState, reason⟩]
      stateStartTime := now }

/-- `StateManager.can_transition_to` (state_manager.py 61-86): every
branch returns `True`. -/
def can_transition_to (_m : StateManager) (_newState : AIState) : Bool :=
  true

/-- A sequence of transition requests `(time, target, reason)`. -/
def transitionRun (m : StateManager) :
    List (ℚ × AIState × Option String) → StateManager
  | [] => m
  | (t, st, r) :: rs => transitionRun (transition_to m t st r) rs

/-- C7 (amended): a request targeting the current state appends no log
entry and changes nothing; every accepted transition appends exactly one
history record, which carries the timestamp, the to-state and the reason
(the from-state and the non-negative prior duration are written to the
text log only, not stored in the record); `N` requests forming a chain of
pairwise-distinct consecutive targets produce exactly `N` records. -/
theorem C7_transition_log (m : StateManager) (now : ℚ) (st : AIState)
    (reason : Option String) :
    (transition_to m now m.currentState reason = m)
  ∧ (st ≠ m.currentState →
      transition_to m now st reason =
        ⟨st, m.stateHistory ++ [⟨now, st, reason⟩], now⟩)
  ∧ (∀ rs : List (ℚ × AIState × Option String),
      List.Chain' (fun a b => a ≠ b)
        (m.currentState :: rs.map (fun p => p.2.1)) →
      (transitionRun m rs).stateHistory.length =
        m.stateHistory.length + rs.length) := by
  refine ⟨by simp [transition_to], fun hne => by simp [transition_to, hne], ?_⟩
  intro rs
  induction rs generalizing m with
  | nil => simp [transitionRun]
  | cons p rs ih =>
    obtain ⟨t, target, r⟩ := p
    intro hchain
    rw [List.map_cons, List.chain'_cons] at hchain
    obtain ⟨hne, hchain'⟩ := hchain
    have hstep : transition_to m t target r =
        ⟨target, m.stateHistory ++ [⟨t, target, r⟩], t⟩ := by
      simp [transition_to, Ne.symm hne]
    have ih' := ih ⟨target, m.stateHistory ++ [⟨t, target, r⟩], t⟩
      (by simpa using hchain')
    simp only [transitionRun, hstep]
    rw [ih']
    simp [List.length_append]
    omega

/-- C7 counterexample: two accepted transitions at the same time to the
same state, from different from-states and after different prior
durations, append identical history records — so the appended record
contains neither the from-state nor the prior duration, contrary to the
claim that every record carries both. -/
theorem C7_counterexample :
    (transition_to ⟨AIState.IDLE, [], 0⟩ 5 AIState.PLAYING (some "goal")).stateHistory =
      (transition_to ⟨AIState.TALKING, [], 3⟩ 5 AIState.PLAYING (some "goal")).stateHistory
  ∧ AIState.IDLE ≠ AIState.TALKING
  ∧ ((5 : ℚ) - 0) ≠ ((5 : ℚ) - 3) := by
  refine ⟨?_, by simp, by norm_num⟩
  simp [transition_to]

/-- C7 witness: a no-op self-transition, one accepted transition, and a
two-request distinct chain appending two records. -/
theorem C7_transition_log_witness :
    AIState.TALKING ≠ AIState.IDLE ∧
    (transitionRun ⟨AIState.IDLE, [], 0⟩
      [(1, AIState.TALKING, none), (2, AIState.PLAYING, none)]).stateHistory.length = 2 := by
  refine ⟨by simp, ?_⟩
  have h := (C7_transition_log ⟨AIState.IDLE, [], 0⟩ 0 AIState.IDLE none).2.2
    [(1, AIState.TALKING, none), (2, AIState.PLAYING, none)]
    (by simp [List.chain'_cons])
  simpa using h

/-! ## Unity actuation channel (`planner_layer/unity_client.py`)

`__init__` (line 37) creates `asyncio.Queue()` with the default
`maxsize = 0`, i.e. an unbounded queue; `put_nowait` raises `QueueFull`
only when `0 < maxsize ≤ len(queue)`.  `_queue_message` (152-164) tries
`put_nowait` and, on `QueueFull`, drops the oldest entry and enqueues the
new one.  `_sender_loop` (63-98) dequeues one message; if connected it
attempts transmission and on error marks the connection down without
re-enqueueing; if disconnected it puts the message back at the tail. -/

structure UnityMessage where
  cmd : String
  value : String
  timestamp : ℚ
  audioData : Option String
deriving DecidableEq

/-- The `maxsize` of the queue as constructed in `UnityClient.__init__`
(line 37): `asyncio.Queue()`, default `maxsize = 0` (unbounded). -/
def sendQueueMaxsize : ℕ := 0

/-- `UnityClient._queue_message` (152-164): `put_nowait`, and on
`QueueFull` (which asyncio raises iff `0 < maxsize ≤ len`) drop the
oldest queued message and enqueue the new one. -/
def queue_message (maxsize : ℕ) (q : List UnityMessage) (m : UnityMessage) :
    List UnityMessage :=
  if 0 < maxsize ∧ maxsize ≤ q.length then
    match q with
    | [] => []
    | _ :: rest => rest ++ [m]
  else
    q ++ [m]

structure UnityClientState where
  sendQueue : List UnityMessage
  isConnected : Bool
deriving DecidableEq

/-- One iteration of `UnityClient._sender_loop` (63-98) on a dequeued
message.  Returns the new state, the successfully transmitted message (if
any) and the message lost to a mid-flight transmission error (if any).
`sendOk` is the environment: whether `writer.write`/`drain` succeeds. -/
def sender_loop_step (s : UnityClientState) (sendOk : Bool) :
    UnityClientState × Option UnityMessage × Option UnityMessage :=
  match s.sendQueue with
  | [] => (s, none, none)
  | m :: rest =>
    if s.isConnected then
      if sendOk then
        ({ s with sendQueue := rest }, some m, none)
      else
        ({ sendQueue := rest, isConnected := false }, none, some m)
    else
      ({ s with sendQueue := rest ++ [m] }, none, none)

/-- The wire attempts of a sender-loop step: the message handed to the
writer, whether the write succeeded or raised. -/
def stepAttempts (r : UnityClientState × Option UnityMessage × Option UnityMessage) :
    List UnityMessage :=
  r.2.1.toList ++ r.2.2.toList

/-- A run of the sender loop.  Each event is `(reconnected, sendOk)`:
whether a scheduled reconnect completed before this iteration, and
whether a transmission attempt in it would succeed. -/
def sender_loop_run (s : UnityClientState) :
    List (Bool × Bool) → UnityClientState × List UnityMessage
  | [] => (s, [])
  | ev :: evs =>
    let s1 := if ev.1 then { s with isConnected := true } else s
    let r := sender_loop_step s1 ev.2
    let rest := sender_loop_run r.1 evs
    (rest.1, stepAttempts r ++ rest.2)

lemma sender_loop_step_count (s : UnityClientState) (sendOk : Bool)
    (m : UnityMessage) :
    (sender_loop_step s sendOk).1.sendQueue.count m +
      (stepAttempts (sender_loop_step s sendOk)).count m =
    s.sendQueue.count m := by
  rcases hq : s.sendQueue with _ | ⟨m0, rest⟩
  · simp [sender_loop_step, hq, stepAttempts]
  · rcases hc : s.isConnected with _ | _
    · simp [sender_loop_step, hq, hc, stepAttempts, List.count_append,
        List.count_cons]
    · rcases hok : sendOk with _ | _
      · simp [sender_loop_step, hq, hc, hok, stepAttempts, List.count_cons]
      · simp [sender_loop_step, hq, hc, hok, stepAttempts, List.count_cons]

lemma reconnect_queue (s : UnityClientState) (b : Bool) :
    (if b then { s with isConnected := true } else s).sendQueue = s.sendQueue := by
  cases b <;> rfl

lemma sender_loop_run_count (evs : List (Bool × Bool)) :
    ∀ (s : UnityClientState) (m : UnityMessage),
      (sender_loop_run s evs).1.sendQueue.count m +
        (sender_loop_run s evs).2.count m =
      s.sendQueue.count m := by
  induction evs with
  | nil => intro s m; simp [sender_loop_run]
  | cons ev evs ih =>
    intro s m
    simp only [sender_loop_run, List.count_append]
    have hstep := sender_loop_step_count
      (if ev.1 then { s with isConnected := true } else s) ev.2 m
    have hrun := ih (sender_loop_step
      (if ev.1 then { s with isConnected := true } else s) ev.2).1 m
    rw [reconnect_queue s ev.1] at hstep
    omega

/-- C2: a command dequeued while the channel is disconnected is put back
at the tail of the queue (and nothing is transmitted or lost); a command
whose transmission raises is not re-enqueued (the connection is marked
down instead); consequently, over any run of the sender loop with any
pattern of reconnections and failures, a command occurring once in the
queue reaches the wire at most once. -/
theorem C2_sender_loop (s : UnityClientState) (m : UnityMessage)
    (rest : List UnityMessage) (sendOk : Bool) :
    (s.sendQueue = m :: rest → s.isConnected = false →
      sender_loop_step s sendOk =
        ({ s with sendQueue := rest ++ [m] }, none, none))
  ∧ (s.sendQueue = m :: rest → s.isConnected = true → sendOk = false →
      sender_loop_step s sendOk = (⟨rest, false⟩, none, some m))
  ∧ (∀ evs : List (Bool × Bool), s.sendQueue.count m = 1 →
      ((sender_loop_run s evs).2.count m ≤ 1 ∧
        (sender_loop_run s evs).1.sendQueue.count m +
          (sender_loop_run s evs).2.count m = 1)) := by
  refine ⟨fun hq hc => ?_, fun hq hc hok => ?_, fun evs h1 => ?_⟩
  · simp [sender_loop_step, hq, hc]
  · simp [sender_loop_step, hq, hc, hok]
  · have := sender_loop_run_count evs s m
    omega

/-- C2 witness: a concrete run — one failed transmission of a queued
command, after which it never reaches the wire again. -/
theorem C2_sender_loop_witness :
    (⟨[⟨"SAY", "hi", 0, none⟩], true⟩ : UnityClientState).sendQueue.count
        ⟨"SAY", "hi", 0, none⟩ = 1 ∧
    (sender_loop_run ⟨[⟨"SAY", "hi", 0, none⟩], true⟩
        [(false, false), (true, true)]).2.count ⟨"SAY", "hi", 0, none⟩ ≤ 1 := by
  refine ⟨by simp, ?_⟩
  exact ((C2_sender_loop ⟨[⟨"SAY", "hi", 0, none⟩], true⟩ ⟨"SAY", "hi", 0, none⟩
    [] false).2.2 [(false, false), (true, true)] (by simp)).1

/-- C3: evaluating `_queue_message` with the queue as constructed in
`__init__` (`asyncio.Queue()`, `maxsize = 0`, unbounded): enqueueing three
commands while disconnected keeps all three in FIFO order — the oldest is
never evicted, because `put_nowait` on an unbounded queue never raises
`QueueFull`; the drop-oldest handler is reachable only for a bounded
construction (second conjunct, `maxsize = 2`), which the source does not
use. -/
theorem C3_queue_unbounded :
    (∀ (q : List UnityMessage) (m : UnityMessage),
      queue_message sendQueueMaxsize q m = q ++ [m])
  ∧ ([⟨"ACTION", "A", 0, none⟩, ⟨"ACTION", "B", 1, none⟩,
        ⟨"ACTION", "C", 2, none⟩].foldl (queue_message sendQueueMaxsize) [] =
      [⟨"ACTION", "A", 0, none⟩, ⟨"ACTION", "B", 1, none⟩,
        ⟨"ACTION", "C", 2, none⟩])
  ∧ (queue_message 2 [⟨"ACTION", "A", 0, none⟩, ⟨"ACTION", "B", 1, none⟩]
        ⟨"ACTION", "C", 2, none⟩ =
      [⟨"ACTION", "B", 1, none⟩, ⟨"ACTION", "C", 2, none⟩]) := by
  refine ⟨fun q m => ?_, ?_, ?_⟩
  · simp [queue_message, sendQueueMaxsize]
  · simp [queue_message, sendQueueMaxsize]
  · simp [queue_message]

/-! ## Action executor (`planner_layer/executor.py`)

`execute_actions` walks the action list; before each action it consults
`_check_rate_limit` and, when the check fails, sleeps `min_interval`
once — then transmits the action regardless, without re-checking.
`datetime.now()` is modelled by a virtual clock advanced by the sleeps. -/

structure ExecutorState where
  time : ℚ
  actionTimes : List ℚ
  sent : List (String × ℚ)
deriving DecidableEq

/-- `Executor.__init__` (line 34):
`min_interval = 1.0 / max_actions_per_sec if max_actions_per_sec > 0 else 0`. -/
def min_interval (maxActionsPerSec : ℚ) : ℚ :=
  if 0 < maxActionsPerSec then 1 / maxActionsPerSec else 0

/-- `Executor._check_rate_limit` (75-83): true when no recorded action,
else when the count of recorded times within the last second is strictly
below `max_actions_per_sec`. -/
def check_rate_limit (maxActionsPerSec : ℚ) (now : ℚ) (actionTimes : List ℚ) :
    Bool :=
  if actionTimes.isEmpty then
    true
  else
    decide (((actionTimes.countP fun t => decide (now - t ≤ 1) : ℕ) : ℚ) <
      maxActionsPerSec)

/-- One pass of the loop body of `Executor.execute_actions` (53-73): a
failed rate check sleeps `min_interval` once; the action is then sent,
its timestamp appended, timestamps older than one second pruned
(`t > cutoff`), and the cooldown sleep applied if positive. -/
def execute_one (cooldown maxPerSec : ℚ) (s : ExecutorState) (a : String) :
    ExecutorState :=
  let tSend := if check_rate_limit maxPerSec s.time s.actionTimes then s.time
    else s.time + min_interval maxPerSec
  { time := if 0 < cooldown then tSend + cooldown else tSend
    actionTimes := (s.actionTimes ++ [tSend]).filter fun t => decide (tSend - 1 < t)
    sent := s.sent ++ [(a, tSend)] }

/-- `Executor.execute_actions` (41-73). -/
def execute_actions (cooldown maxPerSec : ℚ) (actions : List String)
    (s : ExecutorState) : ExecutorState :=
  if actions.isEmpty then s else actions.foldl (execute_one cooldown maxPerSec) s

lemma min_interval_nonneg (maxPerSec : ℚ) : 0 ≤ min_interval maxPerSec := by
  unfold min_interval
  split
  · positivity
  · exact le_refl 0

lemma execute_one_time_le (cooldown maxPerSec : ℚ) (s : ExecutorState)
    (a : String) : s.time ≤ (execute_one cooldown maxPerSec s a).time := by
  unfold execute_one
  have h0 := min_interval_nonneg maxPerSec
  dsimp only
  split
  · split <;> linarith
  · split <;> linarith

lemma foldl_execute_sent (cooldown maxPerSec : ℚ) :
    ∀ (actions : List String) (s : ExecutorState),
      ((actions.foldl (execute_one cooldown maxPerSec) s).sent.map Prod.fst) =
        s.sent.map Prod.fst ++ actions := by
  intro actions
  induction actions with
  | nil => intro s; simp
  | cons a actions ih =>
    intro s
    rw [List.foldl_cons, ih]
    simp [execute_one]

lemma foldl_execute_time (cooldown maxPerSec : ℚ) :
    ∀ (actions : List String) (s : ExecutorState),
      s.time ≤ (actions.foldl (execute_one cooldown maxPerSec) s).time := by
  intro actions
  induction actions with
  | nil => intro s; simp
  | cons a actions ih =>
    intro s
    rw [List.foldl_cons]
    exact le_trans (execute_one_time_le cooldown maxPerSec s a)
      (ih (execute_one cooldown maxPerSec s a))

/-- C4 (amended): the empty action list is a no-op; `execute_actions`
never drops an action — every input action is transmitted exactly once,
in input order — and only delays (the virtual clock never goes
backwards); but a saturated rate check only sleeps one `min_interval`
before transmitting anyway, so the trailing 1-second window bound can be
exceeded (see the counterexample). -/
theorem C4_executor (cooldown maxPerSec : ℚ) (actions : List String)
    (s : ExecutorState) :
    (execute_actions cooldown maxPerSec [] s = s)
  ∧ ((execute_actions cooldown maxPerSec actions s).sent.map Prod.fst =
      s.sent.map Prod.fst ++ actions)
  ∧ (s.time ≤ (execute_actions cooldown maxPerSec actions s).time) := by
  refine ⟨by simp [execute_actions], ?_, ?_⟩
  · unfold execute_actions
    rcases h : actions with _ | ⟨a, rest⟩
    · simp
    · rw [if_neg (by simp)]
      exact foldl_execute_sent cooldown maxPerSec (a :: rest) s
  · unfold execute_actions
    split
    · exact le_refl s.time
    · exact foldl_execute_time cooldown maxPerSec actions s

/-- C4 counterexample: with `max_actions_per_sec = 2` and zero cooldown,
the action list `[A, A, A]` is transmitted at times `0, 0, 1/2`: three
transmissions inside the trailing 1-second window ending at `1/2`,
exceeding the claimed bound of 2 — after a failed check the executor
sleeps once and transmits without re-checking. -/
theorem C4_counterexample :
    ((execute_actions 0 2 ["A", "A", "A"] ⟨0, [], []⟩).sent =
      [("A", 0), ("A", 0), ("A", 1 / 2)])
  ∧ 2 < ((execute_actions 0 2 ["A", "A", "A"] ⟨0, [], []⟩).sent.countP
      fun p => decide (1 / 2 - 1 < p.2 ∧ p.2 ≤ 1 / 2)) := by
  constructor
  · norm_num [execute_actions, execute_one, check_rate_limit, min_interval,
      List.countP_cons, List.countP_nil]
  · norm_num [execute_actions, execute_one, check_rate_limit, min_interval,
      List.countP_cons, List.countP_nil]

/-! ## Priority event multiplexer (`main.py:_main_loop`, 632-685)

Each iteration polls, with a `0.05 s` timeout each, the Twitch events
queue, then the game events queue, then the chat queue.  Consuming a
platform or game event ends the iteration with `continue`; consuming a
chat message falls through to the periodic autonomous-decision check in
the same iteration.  The Brain, planner and manual-controller
collaborators are supplied through `IterEnv`. -/

structure TwitchEventM where
  eventType : String
  displayName : String
deriving DecidableEq

structure GameEventM where
  eventType : String
deriving DecidableEq

structure ChatMessageM where
  username : String
  message : String
deriving DecidableEq

/-- A Brain decision dict: `{"type": ..., "value": ...}`. -/
structure Decision where
  dtype : String
  value : String
deriving DecidableEq

/-- A call into the Brain collaborator. -/
inductive BrainCall
  | chatMsg (username message : String)
  | twitchEvent (eventType displayName : String)
  | gameEvent (eventType : String)
  | autonomous
deriving DecidableEq

/-- An outbound effect of `_execute_decision` / the manual-command path. -/
inductive OutCommand
  | say (text : String)
  | action (name : String)
deriving DecidableEq

/-- `StateManager.set_thinking` (state_manager.py 113-116). -/
def set_thinking (m : StateManager) (now : ℚ) : StateManager :=
  if can_transition_to m AIState.THINKING then
    transition_to m now AIState.THINKING (some "Processando decisao")
  else m

/-- `StateManager.update_state_from_decision` (state_manager.py 96-111). -/
def update_state_from_decision (m : StateManager) (now : ℚ)
    (decisionType : String) : StateManager :=
  if decisionType = "GOAL" then
    if can_transition_to m AIState.PLAYING then
      transition_to m now AIState.PLAYING (some "Decisao: GOAL")
    else m
  else if decisionType = "SAY" then
    if can_transition_to m AIState.TALKING then
      transition_to m now AIState.TALKING (some "Decisao: SAY")
    else m
  else if decisionType = "IDLE" then
    if can_transition_to m AIState.IDLE then
      transition_to m now AIState.IDLE (some "Decisao: IDLE")
    else m
  else m

/-- `AvatarAISystem._execute_decision` (main.py 807-843), with the
planner's expansion of a GOAL supplied by the environment; the SAY path's
Unity/overlay/chat fan-out is collapsed into one `say` command. -/
def execute_decision (plannedActions : List String) (d : Decision) :
    List OutCommand :=
  if d.dtype = "GOAL" then plannedActions.map OutCommand.action
  else if d.dtype = "SAY" then [OutCommand.say d.value]
  else []

structure LoopState where
  eventsQueue : List TwitchEventM
  gameEventsQueue : List GameEventM
  chatQueue : List ChatMessageM
  gate : GateState
  stateMgr : StateManager
  time : ℚ
  lastAutonomousDecision : ℚ
  pokemonEnabled : Bool
  disableBrainWhileGaming : Bool
deriving DecidableEq

/-- Per-iteration environment: the Brain's reply and latency, whether the
manual controller recognizes the chat message as a control command
(`manual_controller and manual_controller.process_chat_command(message)`),
its status message, and the planner's expansion of a GOAL. -/
structure IterEnv where
  brainDecision : Decision
  procDelay : ℚ
  manualHandled : Bool
  statusMessage : String
  plannedActions : List String
deriving DecidableEq

/-- `AvatarAISystem._process_twitch_event` (main.py 713-749): events are
never gated; set THINKING, call the Brain, update state from the
decision, execute it. -/
def process_twitch_event (env : IterEnv) (s : LoopState) (e : TwitchEventM) :
    LoopState × List BrainCall × List OutCommand :=
  let s1 := { s with stateMgr := set_thinking s.stateMgr s.time }
  let tDone := s1.time + env.procDelay
  let s2 := { s1 with
    time := tDone
    stateMgr := update_state_from_decision s1.stateMgr tDone env.brainDecision.dtype }
  (s2, [BrainCall.twitchEvent e.eventType e.displayName],
    execute_decision env.plannedActions env.brainDecision)

/-- `AvatarAISystem._process_game_event` (main.py 687-711): ignored by the
Brain when `disable_brain_while_gaming` is set, else like an event. -/
def process_game_event (env : IterEnv) (s : LoopState) (g : GameEventM) :
    LoopState × List BrainCall × List OutCommand :=
  if s.disableBrainWhileGaming then
    (s, [], [])
  else
    let s1 := { s with stateMgr := set_thinking s.stateMgr s.time }
    let tDone := s1.time + env.procDelay
    let s2 := { s1 with
      time := tDone
      stateMgr := update_state_from_decision s1.stateMgr tDone env.brainDecision.dtype }
    (s2, [BrainCall.gameEvent g.eventType],
      execute_decision env.plannedActions env.brainDecision)

/-- `AvatarAISystem._process_chat_message` (main.py 751-779): the manual
controller may consume the message (answering with a status `say`);
otherwise the decision gate is consulted and, on rejection, the message
is dropped with no further effect. -/
def process_chat_message (env : IterEnv) (s : LoopState) (c : ChatMessageM) :
    LoopState × List BrainCall × List OutCommand :=
  if env.manualHandled then
    (s, [], [OutCommand.say env.statusMessage])
  else if (can_make_brain_decision s.gate s.time).1 then
    let s1 := { s with
      gate := (can_make_brain_decision s.gate s.time).2
      stateMgr := set_thinking s.stateMgr s.time }
    let tDone := s1.time + env.procDelay
    let s2 := { s1 with
      time := tDone
      stateMgr := update_state_from_decision s1.stateMgr tDone env.brainDecision.dtype }
    (s2, [BrainCall.chatMsg c.username c.message],
      execute_decision env.plannedActions env.brainDecision)
  else
    ({ s with gate := (can_make_brain_decision s.gate s.time).2 }, [], [])

/-- `AvatarAISystem._make_autonomous_decision` (main.py 781-805). -/
def make_autonomous_decision (env : IterEnv) (s : LoopState) :
    LoopState × List BrainCall × List OutCommand :=
  if s.pokemonEnabled && s.disableBrainWhileGaming then
    (s, [], [])
  else if (can_make_brain_decision s.gate s.time).1 then
    let s1 := { s with
      gate := (can_make_brain_decision s.gate s.time).2
      stateMgr := set_thinking s.stateMgr s.time }
    let tDone := s1.time + env.procDelay
    let s2 := { s1 with
      time := tDone
      stateMgr := update_state_from_decision s1.stateMgr tDone env.brainDecision.dtype }
    (s2, [BrainCall.autonomous],
      execute_decision env.plannedActions env.brainDecision)
  else
    ({ s with gate := (can_make_brain_decision s.gate s.time).2 }, [], [])

/-- The periodic autonomous-decision check (main.py 673-678): performed
after the chat poll in the same iteration; `last_autonomous_decision` is
set to the time read before the decision ran. -/
def autonomous_check (env : IterEnv) (s : LoopState) :
    LoopState × List BrainCall × List OutCommand :=
  if 5 ≤ s.time - s.lastAutonomousDecision then
    if s.chatQueue.isEmpty && s.eventsQueue.isEmpty then
      let r := make_autonomous_decision env s
      ({ r.1 with lastAutonomousDecision := s.time }, r.2.1, r.2.2)
    else
      ({ s with lastAutonomousDecision := s.time }, [], [])
  else
    (s, [], [])

inductive ConsumedItem
  | platform (e : TwitchEventM)
  | game (g : GameEventM)
  | chat (c : ChatMessageM)
deriving DecidableEq

structure IterResult where
  consumed : Option ConsumedItem
  brainCalls : List BrainCall
  commands : List OutCommand
deriving DecidableEq

/-- One iteration of `AvatarAISystem._main_loop` (main.py 639-685).
Each empty-queue poll costs its `0.05 s` timeout; `continue` after a
platform or game event skips both the chat poll, the autonomous check
and the final `0.05 s` sleep. -/
def main_loop_iter (env : IterEnv) (s : LoopState) : LoopState × IterResult :=
  match s.eventsQueue with
  | e :: rest =>
    let r := process_twitch_event env { s with eventsQueue := rest } e
    (r.1, ⟨some (ConsumedItem.platform e), r.2.1, r.2.2⟩)
  | [] =>
    let sE := { s with time := s.time + 1 / 20 }
    match sE.gameEventsQueue with
    | g :: rest =>
      let r := process_game_event env { sE with gameEventsQueue := rest } g
      (r.1, ⟨some (ConsumedItem.game g), r.2.1, r.2.2⟩)
    | [] =>
      let sG := { sE with time := sE.time + 1 / 20 }
      match sG.chatQueue with
      | c :: rest =>
        let r := process_chat_message env { sG with chatQueue := rest } c
        let a := autonomous_check env r.1
        ({ a.1 with time := a.1.time + 1 / 20 },
          ⟨some (ConsumedItem.chat c), r.2.1 ++ a.2.1, r.2.2 ++ a.2.2⟩)
      | [] =>
        let sC := { sG with time := sG.time + 1 / 20 }
        let a := autonomous_check env sC
        ({ a.1 with time := a.1.time + 1 / 20 }, ⟨none, a.2.1, a.2.2⟩)

/-- A run of the multiplexer, collecting the consumed queued items. -/
def loopRun (s : LoopState) : List IterEnv → LoopState × List ConsumedItem
  | [] => (s, [])
  | env :: envs =>
    let r := main_loop_iter env s
    let rest := loopRun r.1 envs
    (rest.1, r.2.consumed.toList ++ rest.2)

/-- All queued items of a state, in dispatch-priority order. -/
def queuedItems (s : LoopState) : List ConsumedItem :=
  s.eventsQueue.map ConsumedItem.platform ++
    s.gameEventsQueue.map ConsumedItem.game ++
    s.chatQueue.map ConsumedItem.chat

lemma process_twitch_queues (env : IterEnv) (s : LoopState) (e : TwitchEventM) :
    (process_twitch_event env s e).1.eventsQueue = s.eventsQueue ∧
    (process_twitch_event env s e).1.gameEventsQueue = s.gameEventsQueue ∧
    (process_twitch_event env s e).1.chatQueue = s.chatQueue := by
  simp [process_twitch_event]

lemma process_game_queues (env : IterEnv) (s : LoopState) (g : GameEventM) :
    (process_game_event env s g).1.eventsQueue = s.eventsQueue ∧
    (process_game_event env s g).1.gameEventsQueue = s.gameEventsQueue ∧
    (process_game_event env s g).1.chatQueue = s.chatQueue := by
  unfold process_game_event
  split <;> simp

lemma process_chat_queues (env : IterEnv) (s : LoopState) (c : ChatMessageM) :
    (process_chat_message env s c).1.eventsQueue = s.eventsQueue ∧
    (process_chat_message env s c).1.gameEventsQueue = s.gameEventsQueue ∧
    (process_chat_message env s c).1.chatQueue = s.chatQueue := by
  unfold process_chat_message
  split
  · simp
  · split <;> simp

lemma make_autonomous_queues (env : IterEnv) (s : LoopState) :
    (make_autonomous_decision env s).1.eventsQueue = s.eventsQueue ∧
    (make_autonomous_decision env s).1.gameEventsQueue = s.gameEventsQueue ∧
    (make_autonomous_decision env s).1.chatQueue = s.chatQueue := by
  unfold make_autonomous_decision
  split
  · simp
  · split <;> simp

lemma autonomous_check_queues (env : IterEnv) (s : LoopState) :
    (autonomous_check env s).1.eventsQueue = s.eventsQueue ∧
    (autonomous_check env s).1.gameEventsQueue = s.gameEventsQueue ∧
    (autonomous_check env s).1.chatQueue = s.chatQueue := by
  unfold autonomous_check
  have hq := make_autonomous_queues env s
  split
  · split
    · simp [hq.1, hq.2.1, hq.2.2]
    · simp
  · simp

lemma process_twitch_calls (env : IterEnv) (s : LoopState) (e : TwitchEventM) :
    (process_twitch_event env s e).2.1 =
      [BrainCall.twitchEvent e.eventType e.displayName] := by
  simp [process_twitch_event]

lemma process_game_no_autonomous (env : IterEnv) (s : LoopState)
    (g : GameEventM) :
    BrainCall.autonomous ∉ (process_game_event env s g).2.1 := by
  unfold process_game_event
  split <;> simp

lemma iter_platform (env : IterEnv) (s : LoopState) (e : TwitchEventM)
    (rest : List TwitchEventM) (h : s.eventsQueue = e :: rest) :
    (main_loop_iter env s).2.consumed = some (ConsumedItem.platform e) ∧
    (main_loop_iter env s).1.eventsQueue = rest ∧
    (main_loop_iter env s).1.gameEventsQueue = s.gameEventsQueue ∧
    (main_loop_iter env s).1.chatQueue = s.chatQueue ∧
    (main_loop_iter env s).2.brainCalls =
      [BrainCall.twitchEvent e.eventType e.displayName] := by
  simp only [main_loop_iter, h]
  refine ⟨by simp, ?_, ?_, ?_, by rw [process_twitch_calls env _ e]⟩
  · rw [(process_twitch_queues env _ e).1]
  · rw [(process_twitch_queues env _ e).2.1]
  · rw [(process_twitch_queues env _ e).2.2]

lemma iter_game (env : IterEnv) (s : LoopState) (g : GameEventM)
    (rest : List GameEventM) (hE : s.eventsQueue = [])
    (hG : s.gameEventsQueue = g :: rest) :
    (main_loop_iter env s).2.consumed = some (ConsumedItem.game g) ∧
    (main_loop_iter env s).1.eventsQueue = [] ∧
    (main_loop_iter env s).1.gameEventsQueue = rest ∧
    (main_loop_iter env s).1.chatQueue = s.chatQueue ∧
    BrainCall.autonomous ∉ (main_loop_iter env s).2.brainCalls := by
  simp only [main_loop_iter, hE, hG]
  refine ⟨by simp, ?_, ?_, ?_, ?_⟩
  · rw [(process_game_queues env _ g).1]
  · rw [(process_game_queues env _ g).2.1]
  · rw [(process_game_queues env _ g).2.2]
  · exact process_game_no_autonomous env _ g

lemma iter_chat (env : IterEnv) (s : LoopState) (c : ChatMessageM)
    (rest : List ChatMessageM) (hE : s.eventsQueue = [])
    (hG : s.gameEventsQueue = []) (hC : s.chatQueue = c :: rest) :
    (main_loop_iter env s).2.consumed = some (ConsumedItem.chat c) ∧
    (main_loop_iter env s).1.eventsQueue = [] ∧
    (main_loop_iter env s).1.gameEventsQueue = [] ∧
    (main_loop_iter env s).1.chatQueue = rest := by
  simp only [main_loop_iter, hE, hG, hC]
  refine ⟨by simp, ?_, ?_, ?_⟩
  · rw [(autonomous_check_queues env _).1, (process_chat_queues env _ c).1]
  · rw [(autonomous_check_queues env _).2.1, (process_chat_queues env _ c).2.1]
  · rw [(autonomous_check_queues env _).2.2, (process_chat_queues env _ c).2.2]

lemma iter_empty (env : IterEnv) (s : LoopState) (hE : s.eventsQueue = [])
    (hG : s.gameEventsQueue = []) (hC : s.chatQueue = []) :
    (main_loop_iter env s).2.consumed = none ∧
    (main_loop_iter env s).1.eventsQueue = [] ∧
    (main_loop_iter env s).1.gameEventsQueue = [] ∧
    (main_loop_iter env s).1.chatQueue = [] := by
  simp only [main_loop_iter, hE, hG, hC]
  refine ⟨by simp, ?_, ?_, ?_⟩
  · rw [(autonomous_check_queues env _).1]
  · rw [(autonomous_check_queues env _).2.1]
  · rw [(autonomous_check_queues env _).2.2]

lemma loopRun_take : ∀ (envs : List IterEnv) (s : LoopState),
    (loopRun s envs).2 = (queuedItems s).take envs.length := by
  intro envs
  induction envs with
  | nil => intro s; simp [loopRun]
  | cons env envs ih =>
    intro s
    simp only [loopRun, List.length_cons]
    rw [ih]
    rcases hE : s.eventsQueue with _ | ⟨e, er⟩
    · rcases hG : s.gameEventsQueue with _ | ⟨g, gr⟩
      · rcases hC : s.chatQueue with _ | ⟨c, cr⟩
        · have hit := iter_empty env s hE hG hC
          simp [queuedItems, hE, hG, hC, hit.1, hit.2.1, hit.2.2.1, hit.2.2.2]
        · have hit := iter_chat env s c cr hE hG hC
          simp [queuedItems, hE, hG, hC, hit.1, hit.2.1, hit.2.2.1, hit.2.2.2]
      · have hit := iter_game env s g gr hE hG
        simp [queuedItems, hE, hG, hit.1, hit.2.1, hit.2.2.1, hit.2.2.2.1]
    · have hit := iter_platform env s e er hE
      simp [queuedItems, hE, hit.1, hit.2.1, hit.2.2.1, hit.2.2.2.1]

/-- C5 (amended): each iteration consumes at most one queued item, in
strict priority order — the head platform event if any, else the head
game event, else the head chat message — and over any run the consumed
items are exactly a priority-ordered prefix of the queued items, so a
platform event is always dispatched before any earlier-queued chat
message.  Consuming a platform or game event restarts the iteration
immediately (in particular no autonomous decision can follow it in the
same iteration), but consuming a chat message does NOT restart: the
autonomous-decision check runs in the same iteration (see the
counterexample). -/
theorem C5_multiplexer (env : IterEnv) (s : LoopState) :
    (∀ e rest, s.eventsQueue = e :: rest →
      (main_loop_iter env s).2.consumed = some (ConsumedItem.platform e) ∧
      (main_loop_iter env s).1.eventsQueue = rest ∧
      (main_loop_iter env s).1.gameEventsQueue = s.gameEventsQueue ∧
      (main_loop_iter env s).1.chatQueue = s.chatQueue ∧
      BrainCall.autonomous ∉ (main_loop_iter env s).2.brainCalls)
  ∧ (∀ g rest, s.eventsQueue = [] → s.gameEventsQueue = g :: rest →
      (main_loop_iter env s).2.consumed = some (ConsumedItem.game g) ∧
      (main_loop_iter env s).1.gameEventsQueue = rest ∧
      BrainCall.autonomous ∉ (main_loop_iter env s).2.brainCalls)
  ∧ (∀ c rest, s.eventsQueue = [] → s.gameEventsQueue = [] →
      s.chatQueue = c :: rest →
      (main_loop_iter env s).2.consumed = some (ConsumedItem.chat c) ∧
      (main_loop_iter env s).1.chatQueue = rest)
  ∧ (s.eventsQueue = [] → s.gameEventsQueue = [] → s.chatQueue = [] →
      (main_loop_iter env s).2.consumed = none)
  ∧ (∀ envs : List IterEnv,
      (loopRun s envs).2 = (queuedItems s).take envs.length) := by
  refine ⟨?_, ?_, ?_, ?_, fun envs => loopRun_take envs s⟩
  · intro e rest h
    have hit := iter_platform env s e rest h
    exact ⟨hit.1, hit.2.1, hit.2.2.1, hit.2.2.2.1, by rw [hit.2.2.2.2]; simp⟩
  · intro g rest hE hG
    have hit := iter_game env s g rest hE hG
    exact ⟨hit.1, hit.2.2.1, hit.2.2.2.2⟩
  · intro c rest hE hG hC
    have hit := iter_chat env s c rest hE hG hC
    exact ⟨hit.1, hit.2.2.2⟩
  · intro hE hG hC
    exact (iter_empty env s hE hG hC).1

/-- C5 counterexample: an iteration that consumes a chat message does not
restart — with the autonomous interval elapsed and a Brain latency of 2 s
exceeding the 1 s gate interval, the very same iteration both consumes
the chat message and issues an autonomous decision, contradicting
"after processing any item the iteration restarts immediately … before
any autonomous decision is issued". -/
theorem C5_counterexample :
    ((main_loop_iter
        ⟨⟨"SAY", "hello"⟩, 2, false, "status", []⟩
        ⟨[], [], [⟨"u", "hi"⟩], ⟨0, 1⟩, ⟨AIState.IDLE, [], 0⟩, 10, 0,
          false, true⟩).2.consumed =
      some (ConsumedItem.chat ⟨"u", "hi"⟩))
  ∧ BrainCall.autonomous ∈
      (main_loop_iter
        ⟨⟨"SAY", "hello"⟩, 2, false, "status", []⟩
        ⟨[], [], [⟨"u", "hi"⟩], ⟨0, 1⟩, ⟨AIState.IDLE, [], 0⟩, 10, 0,
          false, true⟩).2.brainCalls := by
  constructor
  · norm_num [main_loop_iter, process_chat_message, autonomous_check,
      make_autonomous_decision, can_make_brain_decision, set_thinking,
      can_transition_to, transition_to, update_state_from_decision,
      execute_decision]
  · norm_num [main_loop_iter, process_chat_message, autonomous_check,
      make_autonomous_decision, can_make_brain_decision, set_thinking,
      can_transition_to, transition_to, update_state_from_decision,
      execute_decision]

/-- C5 witness: concrete queues — a platform event present together with
an earlier-queued chat message is consumed first, and a two-iteration run
consumes the platform event and then the chat message. -/
theorem C5_multiplexer_witness :
    ((⟨[⟨"follow", "alice"⟩], [], [⟨"bob", "hi"⟩], ⟨0, 1⟩,
        ⟨AIState.IDLE, [], 0⟩, 0, 0, false, true⟩ : LoopState).eventsQueue =
      [⟨"follow", "alice"⟩]) ∧
    (main_loop_iter ⟨⟨"IDLE", ""⟩, 0, false, "", []⟩
      ⟨[⟨"follow", "alice"⟩], [], [⟨"bob", "hi"⟩], ⟨0, 1⟩,
        ⟨AIState.IDLE, [], 0⟩, 0, 0, false, true⟩).2.consumed =
      some (ConsumedItem.platform ⟨"follow", "alice"⟩) := by
  refine ⟨rfl, ?_⟩
  exact ((C5_multiplexer ⟨⟨"IDLE", ""⟩, 0, false, "", []⟩
    ⟨[⟨"follow", "alice"⟩], [], [⟨"bob", "hi"⟩], ⟨0, 1⟩,
      ⟨AIState.IDLE, [], 0⟩, 0, 0, false, true⟩).1
    ⟨"follow", "alice"⟩ [] rfl).1

/-- C9: a chat message dequeued while the decision gate rejects is
discarded entirely — the manual-controller branch did not consume it and
the gate returned false, so no Brain call is made, no state-machine
transition occurs, no outbound command is produced, and the loop state
(including the chat queue: no requeue) is unchanged. -/
theorem C9_chat_rate_limited (env : IterEnv) (s : LoopState)
    (c : ChatMessageM) (hman : env.manualHandled = false)
    (hrej : (can_make_brain_decision s.gate s.time).1 = false) :
    process_chat_message env s c = (s, [], []) := by
  have h2 : (can_make_brain_decision s.gate s.time).2 = s.gate := by
    by_cases h : s.gate.brainDecisionInterval ≤ s.time - s.gate.lastBrainDecisionTime
    · rw [can_make_pos h] at hrej
      exact absurd hrej (by simp)
    · rw [can_make_neg h]
  unfold process_chat_message
  rw [hman, hrej, h2]
  simp

/-- C9 witness: a rejected chat message at a concrete state leaves the
state untouched and produces nothing. -/
theorem C9_chat_rate_limited_witness :
    process_chat_message ⟨⟨"SAY", "x"⟩, 1, false, "", []⟩
      ⟨[], [], [], ⟨0, 1⟩, ⟨AIState.IDLE, [], 0⟩, 1 / 2, 0, false, true⟩
      ⟨"bob", "hi"⟩ =
    (⟨[], [], [], ⟨0, 1⟩, ⟨AIState.IDLE, [], 0⟩, 1 / 2, 0, false, true⟩,
      [], []) :=
  C9_chat_rate_limited _ _ _ rfl
    (by norm_num [can_make_brain_decision])

/-! ## Fixed-timestep simulation loop (`main.py:_pokemon_game_loop`, 386-507)

Every tick: the emulator advances and `frame_count` increments; the
held-button countdown decrements and releases at zero; the vision refresh
is dispatched on its 120-frame cadence; if not in manual mode a completed
in-flight decision is resolved and applied; and a new decision is
dispatched only if not manual, no in-flight handle exists, the 12-frame
cadence has elapsed, an agent exists and no button is held.  The
RL/simple agents and the manual controller are environment parameters. -/

inductive GameBoyButton
  | A
  | B
  | START
  | SELECT
  | UP
  | DOWN
  | LEFT
  | RIGHT
deriving DecidableEq

/-- The `button_map` dict (main.py 451-460); `action = 0` (and any value
outside the map) yields no button, matching `if action > 0` plus the
`action in button_map` membership test. -/
def button_map (action : ℕ) : Option GameBoyButton :=
  if action = 1 then some GameBoyButton.A
  else if action = 2 then some GameBoyButton.B
  else if action = 3 then some GameBoyButton.START
  else if action = 4 then some GameBoyButton.SELECT
  else if action = 5 then some GameBoyButton.UP
  else if action = 6 then some GameBoyButton.DOWN
  else if action = 7 then some GameBoyButton.LEFT
  else if action = 8 then some GameBoyButton.RIGHT
  else none

/-- The in-flight handle `pending_action_future`: a real executor future
(RL-agent path, main.py 478-483) or an already-completed future (the
simple-agent path sets the result immediately, main.py 489-493). -/
inductive PendingFuture
  | executorFuture
  | completedFuture (action : ℕ)
deriving DecidableEq

structure GameLoopState where
  frameCount : ℕ
  lastActionFrame : ℕ
  lastVisionFrame : ℕ
  pending : Option PendingFuture
  currentButton : Option GameBoyButton
  buttonFramesRemaining : ℕ
deriving DecidableEq

/-- Per-tick environment: the control mode read from the manual
controller, whether an outstanding executor future completed this tick,
its value, whether `.result()` raised, and the agent configuration. -/
structure TickEnv where
  isManualMode : Bool
  rlFutureDone : Bool
  rlFutureValue : ℕ
  rlFutureRaises : Bool
  hasRlAgent : Bool
  rlAgentHasEnv : Bool
  simplePredict : Option ℕ
deriving DecidableEq

/-- Held-button management (main.py 420-430): decrement the countdown and
release the button when it reaches zero. -/
def buttonStep (s : GameLoopState) : GameLoopState :=
  if 0 < s.buttonFramesRemaining then
    { s with
      buttonFramesRemaining := s.buttonFramesRemaining - 1
      currentButton :=
        if s.buttonFramesRemaining - 1 = 0 then none else s.currentButton }
  else s

/-- Vision cadence (main.py 432-436): every 120 frames, record the frame
and fire the background analysis. -/
def visionStep (s : GameLoopState) : GameLoopState :=
  if 120 ≤ s.frameCount - s.lastVisionFrame then
    { s with lastVisionFrame := s.frameCount }
  else s

/-- Resolution of a completed in-flight decision (main.py 442-467), only
in AI mode: the handle is cleared and, if the action maps to a button,
the button is pressed and held for 8 frames; an exception clears the
handle with no button. -/
def resolveStep (env : TickEnv) (s : GameLoopState) : GameLoopState :=
  if env.isManualMode then s
  else
    match s.pending with
    | none => s
    | some pf =>
      let isDone := match pf with
        | PendingFuture.executorFuture => env.rlFutureDone
        | PendingFuture.completedFuture _ => true
      if isDone then
        let result : Option ℕ := match pf with
          | PendingFuture.executorFuture =>
            if env.rlFutureRaises then none else some env.rlFutureValue
          | PendingFuture.completedFuture a => some a
        match result with
        | none => { s with pending := none }
        | some action =>
          match button_map action with
          | some b =>
            { s with
              pending := none
              currentButton := some b
              buttonFramesRemaining := 8 }
          | none => { s with pending := none }
      else s

/-- Decision dispatch (main.py 469-495): only if not manual, no handle
outstanding and the 12-frame cadence elapsed; `last_action_frame` is
advanced even when the inner agent/held-button guard then declines; a
new handle is created on the RL path or as a completed future on the
simple path (whose exception leaves no handle).  Returns whether a
decision was dispatched. -/
def dispatchStep (env : TickEnv) (s : GameLoopState) : GameLoopState × Bool :=
  if env.isManualMode = false ∧ s.pending = none ∧
      12 ≤ s.frameCount - s.lastActionFrame then
    let s1 := { s with lastActionFrame := s.frameCount }
    if env.hasRlAgent = true ∧ s1.buttonFramesRemaining = 0 then
      if env.rlAgentHasEnv then
        ({ s1 with pending := some PendingFuture.executorFuture }, true)
      else
        match env.simplePredict with
        | some a =>
          ({ s1 with pending := some (PendingFuture.completedFuture a) }, true)
        | none => (s1, false)
    else (s1, false)
  else (s, false)

/-- The loop state at the dispatch check point of one tick: after the
unconditional emulator tick and frame increment, the held-button
countdown, the vision cadence and the in-flight resolution. -/
def preDispatch (env : TickEnv) (s : GameLoopState) : GameLoopState :=
  resolveStep env (visionStep (buttonStep { s with frameCount := s.frameCount + 1 }))

/-- One full iteration of `_pokemon_game_loop`; the Bool reports whether
a new decision was dispatched this tick. -/
def game_tick (env : TickEnv) (s : GameLoopState) : GameLoopState × Bool :=
  dispatchStep env (preDispatch env s)

/-- A run of the simulation loop, counting dispatched decisions. -/
def gameRun (s : GameLoopState) : List TickEnv → GameLoopState × ℕ
  | [] => (s, 0)
  | env :: envs =>
    let r := game_tick env s
    let rest := gameRun r.1 envs
    (rest.1, (if r.2 then 1 else 0) + rest.2)

lemma dispatch_only_if (env : TickEnv) (s : GameLoopState)
    (h : (dispatchStep env s).2 = true) :
    env.isManualMode = false ∧ s.pending = none ∧
      12 ≤ s.frameCount - s.lastActionFrame ∧
      s.buttonFramesRemaining = 0 ∧ env.hasRlAgent = true := by
  unfold dispatchStep at h
  by_cases h1 : env.isManualMode = false ∧ s.pending = none ∧
      12 ≤ s.frameCount - s.lastActionFrame
  · rw [if_pos h1] at h
    by_cases h2 : env.hasRlAgent = true ∧
        ({ s with lastActionFrame := s.frameCount } : GameLoopState).buttonFramesRemaining = 0
    · exact ⟨h1.1, h1.2.1, h1.2.2, h2.2, h2.1⟩
    · rw [if_neg h2] at h
      simp at h
  · rw [if_neg h1] at h
    simp at h

lemma dispatch_pending (env : TickEnv) (s : GameLoopState) (p : PendingFuture)
    (hp : s.pending = some p) : (dispatchStep env s).2 = false := by
  rcases h : (dispatchStep env s).2 with _ | _
  · rfl
  · have := (dispatch_only_if env s h).2.1
    rw [hp] at this
    exact absurd this (by simp)

lemma dispatch_manual (env : TickEnv) (s : GameLoopState)
    (hm : env.isManualMode = true) : (dispatchStep env s).2 = false := by
  rcases h : (dispatchStep env s).2 with _ | _
  · rfl
  · have := (dispatch_only_if env s h).1
    rw [hm] at this
    exact absurd this (by simp)

lemma buttonStep_pending (s : GameLoopState) :
    (buttonStep s).pending = s.pending := by
  unfold buttonStep
  split <;> rfl

lemma visionStep_pending (s : GameLoopState) :
    (visionStep s).pending = s.pending := by
  unfold visionStep
  split <;> rfl

lemma resolve_not_done (env : TickEnv) (s : GameLoopState)
    (hp : s.pending = some PendingFuture.executorFuture)
    (hd : env.rlFutureDone = false) :
    (resolveStep env s).pending = some PendingFuture.executorFuture := by
  unfold resolveStep
  split
  · exact hp
  · rw [hp]
    simp [hd, hp]

/-- C6: a decision is dispatched in a tick only when the loop is in AI
mode and no decision is outstanding at the dispatch point; while an
executor future is outstanding and unresolved no new dispatch occurs; a
manual-mode tick never dispatches; and over any run that stays in manual
mode zero decisions are dispatched regardless of elapsed frames. -/
theorem C6_single_in_flight (env : TickEnv) (s : GameLoopState) :
    ((game_tick env s).2 = true →
      env.isManualMode = false ∧ (preDispatch env s).pending = none)
  ∧ (s.pending = some PendingFuture.executorFuture → env.rlFutureDone = false →
      (game_tick env s).2 = false)
  ∧ (env.isManualMode = true → (game_tick env s).2 = false)
  ∧ (∀ envs : List TickEnv, (∀ e ∈ envs, e.isManualMode = true) →
      (gameRun s envs).2 = 0) := by
  refine ⟨?_, ?_, ?_, ?_⟩
  · intro h
    have := dispatch_only_if env (preDispatch env s) h
    exact ⟨this.1, this.2.1⟩
  · intro hp hd
    have hpend : (preDispatch env s).pending = some PendingFuture.executorFuture := by
      unfold preDispatch
      apply resolve_not_done env _ _ hd
      rw [visionStep_pending, buttonStep_pending]
      exact hp
    exact dispatch_pending env (preDispatch env s) _ hpend
  · intro hm
    exact dispatch_manual env (preDispatch env s) hm
  · intro envs
    induction envs generalizing s with
    | nil => intro _; rfl
    | cons e envs ih =>
      intro hall
      have h1 : (game_tick e s).2 = false :=
        dispatch_manual e (preDispatch e s) (hall e (by simp))
      simp only [gameRun, h1]
      rw [ih (game_tick e s).1 fun x hx => hall x (by simp [hx])]
      simp

/-- C6 witness: a two-tick manual-mode run dispatches zero decisions even
though the action cadence has elapsed. -/
theorem C6_single_in_flight_witness :
    (∀ e ∈ [(⟨true, false, 0, false, true, true, none⟩ : TickEnv),
        ⟨true, false, 0, false, true, true, none⟩], e.isManualMode = true) ∧
    (gameRun ⟨100, 0, 0, none, none, 0⟩
      [⟨true, false, 0, false, true, true, none⟩,
        ⟨true, false, 0, false, true, true, none⟩]).2 = 0 :=
  ⟨by decide,
    (C6_single_in_flight ⟨true, false, 0, false, true, true, none⟩
      ⟨100, 0, 0, none, none, 0⟩).2.2.2
      [⟨true, false, 0, false, true, true, none⟩,
        ⟨true, false, 0, false, true, true, none⟩] (by decide)⟩

/-- C10: whenever a tick dispatches a new decision, at the dispatch check
point the loop is in AI mode, no decision handle is outstanding, the
12-frame action cadence has elapsed, the held-button countdown is zero,
and an agent is configured. -/
theorem C10_dispatch_guard (env : TickEnv) (s : GameLoopState)
    (h : (game_tick env s).2 = true) :
    env.isManualMode = false ∧
    (preDispatch env s).pending = none ∧
    12 ≤ (preDispatch env s).frameCount - (preDispatch env s).lastActionFrame ∧
    (preDispatch env s).buttonFramesRemaining = 0 ∧
    env.hasRlAgent = true :=
  dispatch_only_if env (preDispatch env s) h

/-- C10 witness: a tick at frame cadence with no held button and no
outstanding handle dispatches, and the guard conditions hold there. -/
theorem C10_dispatch_guard_witness :
    (game_tick ⟨false, false, 0, false, true, true, none⟩
      ⟨11, 0, 0, none, none, 0⟩).2 = true ∧
    (preDispatch ⟨false, false, 0, false, true, true, none⟩
      ⟨11, 0, 0, none, none, 0⟩).pending = none :=
  ⟨by decide,
    (C10_dispatch_guard ⟨false, false, 0, false, true, true, none⟩
      ⟨11, 0, 0, none, none, 0⟩ (by decide)).2.1⟩

end AvatarAI
